import Mathlib

/-!
Verification of the GEMPAK binary-archive decoder (`gempakio/decode.py`).

The relevant program fragments are shallowly embedded below:

* `fortran_ishift` / `c_int32` — the 32-bit Fortran-style shift primitive
  (`GempakFile._fortran_ishift`); Python's `ctypes.c_int32(x).value` is the
  low 32 bits of `x` reinterpreted as a signed two's-complement value, and
  Python's `i & 0xffffffff` on an arbitrary integer is the non-negative
  residue `i % 2^32`, so both are modelled with `% 4294967296`.
* `unpack_real` — the packed-real decoder (`GempakFile._unpack_real`);
  Python floats are modelled as `ℚ`, `10 ** s` as `pow10 s`, and numpy
  int32 buffer words as `Int`.  Python's `&`/`|` on integers are
  two's-complement bitwise operations, i.e. `Int.land`/`Int.lor`.
* `unpack_grid` and the per-codec decoders (`GempakGrid._unpack_grid`);
  the byte-source reads are abstracted: metadata records and the packed
  word buffer are passed as arguments, exactly as read by the Python code.
* the vertical-profile merge (`GempakSounding._merge_sounding`), embedded
  step by step (surface seed and validation, surface overrides, mandatory
  temperature merge, mandatory wind merge, and the height-coordinate
  significant-wind merge).  `merged` is the `Profile` record of six
  parallel sequences; each source part is a record of its parameter lists
  and the presence of a `HGHT` parameter in the `PPBB` part is the boolean
  flag `ppbbIsZ`.

Python `list.insert` and `bisect.bisect_left` are reproduced bit for bit
(`pyInsert`, `bisectLeft`), including the index clamping of `insert`.
-/

/-- `ctypes.c_int32(x).value`: low 32 bits of `x` as a signed value. -/
def c_int32 (x : Int) : Int :=
  let r := x % 4294967296
  if r < 2147483648 then r else r - 4294967296

/-- `GempakFile._fortran_ishift` (decode.py lines 384-398).
`i << shift` on Python integers is `i * 2 ^ shift`; `i & 0xffffffff` is
`i % 4294967296`; `>>` on a non-negative value is division by `2 ^ k`. -/
def fortran_ishift (i shift : Int) : Int :=
  if 0 < shift then
    c_int32 (i * 2 ^ shift.toNat)
  else if shift < 0 then
    if i < 0 then
      (i % 4294967296) / 2 ^ (-shift).toNat
    else
      i / 2 ^ (-shift).toNat
  else
    i

/-- Python `10 ** s` for an integer scale `s` (exact-rational model of the
float that Python produces for negative `s`). -/
def pow10 (s : Int) : ℚ :=
  if 0 ≤ s then ((10 ^ s.toNat : Nat) : ℚ) else 1 / ((10 ^ (-s).toNat : Nat) : ℚ)

/-- One row of a part's parameter table: name, decimal scale, integer
offset, bit width (the name, scale, offset and bits arrays of the
decoded parameter table). -/
structure Parm where
  name : String
  scale : Int
  offset : Int
  bits : Nat
deriving DecidableEq, Repr

/-- Field extraction of `_unpack_real` (decode.py lines 437-455): from the
current parameter group's words `pdat`, at running bit offset `itotal`,
extract a `bits`-wide field, possibly straddling a 32-bit word boundary. -/
def extractField (pdat : List Int) (itotal : Nat) (bits : Nat) : Int :=
  let isbitc : Nat := itotal % 32 + 1
  let iswrdc : Nat := itotal / 32
  let jshift : Int := 1 - (isbitc : Int)
  let jword : Int := pdat.getD iswrdc 0
  let mask : Int := fortran_ishift 4294967295 ((bits : Int) - 32)
  let ifield : Int := Int.land (fortran_ishift jword jshift) mask
  if isbitc + bits - 1 > 32 then
    let jword2 : Int := pdat.getD (iswrdc + 1) 0
    let iword : Int := Int.land (fortran_ishift jword2 (jshift + 32)) mask
    Int.lor ifield iword
  else
    ifield

/-- Decode of one parameter of one group (`_unpack_real` loop body, lines
433-461): missing test against `imissc`, else `(ifield + offset) * scale`. -/
def decodeOne (mis : ℚ) (pdat : List Int) (itotal : Nat) (e : Parm) : ℚ :=
  let scale : ℚ := pow10 e.scale
  let imissc : Int := fortran_ishift 4294967295 ((e.bits : Int) - 32)
  let ifield : Int := extractField pdat itotal e.bits
  if ifield = imissc then mis else ((ifield : ℚ) + (e.offset : ℚ)) * scale

/-- Inner loop of `_unpack_real` over the parameter table, threading the
running bit offset `itotal`. -/
def groupDecode (mis : ℚ) (pdat : List Int) : Nat → List Parm → List ℚ
  | _, [] => []
  | itotal, e :: rest =>
      decodeOne mis pdat itotal e :: groupDecode mis pdat (itotal + e.bits) rest

inductive UnpackErr where
  | zeroDivision
  | lengthMismatch
deriving DecidableEq, Repr

/-- `GempakFile._unpack_real` (decode.py lines 413-466).  `length` is the
declared word count; `buffer` the packed words.  Python's floor division
`//` is `Int.fdiv`; dividing by `pwords = 0` raises `ZeroDivisionError`
before the length check, and the length mismatch raises `ValueError`
(the message Unpacking length mismatch). -/
def unpack_real (mis : ℚ) (buffer : List Int) (table : List Parm)
    (length : Nat) : Except UnpackErr (List ℚ) :=
  let pwords : Int := (((table.map Parm.bits).sum : Int) - 1).fdiv 32 + 1
  if pwords = 0 then
    .error .zeroDivision
  else
    let npack : Int := ((length : Int) - 1).fdiv pwords + 1
    if npack * pwords ≠ (length : Int) then
      .error .lengthMismatch
    else
      .ok ((List.range npack.toNat).flatMap fun g =>
        groupDecode mis ((buffer.drop (g * pwords.toNat)).take pwords.toNat) 0 table)

/-- `pwords` as computed by the source (`(sum(bits) - 1) // 32 + 1`), as a
natural number. -/
def pwordsNat (table : List Parm) : Nat :=
  ((table.map Parm.bits).sum - 1) / 32 + 1

/-- Bits occupied by the parameters before index `p` (the value of the
running `itotal` when parameter `p` is decoded). -/
def bitsBefore (table : List Parm) (p : Nat) : Nat :=
  ((table.take p).map Parm.bits).sum

inductive GridErr where
  | unsupported (msg : String)
  | unknownPacking (code : Int)
  | structFormat
  | broadcastMismatch
deriving DecidableEq, Repr

/-- One cell of the `grib`/`dec` decoder loop (decode.py lines 676-695):
extraction with the running `(ibit, iword)` cursor, then
`reference + idat * scale` or the missing sentinel. -/
def decCells (mis : ℚ) (bits : Nat) (missing_flag : Int) (reference scale : ℚ)
    (packed : List Int) : Nat → Int → Nat → List ℚ
  | 0, _, _ => []
  | n + 1, ibit, iword =>
      let imax : Int := 2 ^ bits - 1
      let jshft : Int := (bits : Int) + ibit - 33
      let idat0 : Int := Int.land (fortran_ishift (packed.getD iword 0) jshft) imax
      let idat : Int :=
        if 0 < jshft then
          Int.lor idat0 (fortran_ishift (packed.getD (iword + 1) 0) (jshft - 32))
        else idat0
      let v : ℚ := if idat = imax ∧ missing_flag ≠ 0 then mis
        else reference + (idat : ℚ) * scale
      let ibit' : Int := ibit + bits
      if 32 < ibit' then
        v :: decCells mis bits missing_flag reference scale packed n (ibit' - 32) (iword + 1)
      else
        v :: decCells mis bits missing_flag reference scale packed n ibit' iword

/-- State carried across the cells of one `diff`-decoded grid:
`(iword, ibit, first, psav, plin)` (decode.py lines 612-614). -/
structure DiffState where
  iword : Nat
  ibit : Int
  first : Bool
  psav : ℚ
  plin : ℚ

/-- One row of the `diff` decoder (decode.py lines 616-650): `line` is reset
at each row start; the cursor advance (lines 627-630) precedes the value
computation (lines 632-650). -/
def diffRow (mis : ℚ) (bits : Nat) (missing_flag : Int) (reference scale diffmin : ℚ)
    (packed : List Int) : Nat → Bool → DiffState → List ℚ × DiffState
  | 0, _, st => ([], st)
  | n + 1, line, st =>
      let imiss : Int := 2 ^ bits - 1
      let jshft : Int := (bits : Int) + st.ibit - 33
      let idat0 : Int := Int.land (fortran_ishift (packed.getD st.iword 0) jshft) imiss
      let idat : Int :=
        if 0 < jshft then
          Int.lor idat0 (fortran_ishift (packed.getD (st.iword + 1) 0) (jshft - 32))
        else idat0
      let ibit' : Int := st.ibit + bits
      let cur : Nat × Int := if 32 < ibit' then (st.iword + 1, ibit' - 32) else (st.iword, ibit')
      if missing_flag ≠ 0 ∧ idat = imiss then
        let st' : DiffState := ⟨cur.1, cur.2, st.first, st.psav, st.plin⟩
        let rest := diffRow mis bits missing_flag reference scale diffmin packed n line st'
        (mis :: rest.1, rest.2)
      else if st.first then
        let st' : DiffState := ⟨cur.1, cur.2, false, reference, reference⟩
        let rest := diffRow mis bits missing_flag reference scale diffmin packed n true st'
        (reference :: rest.1, rest.2)
      else if ¬ line then
        let v : ℚ := st.plin + (diffmin + (idat : ℚ) * scale)
        let st' : DiffState := ⟨cur.1, cur.2, false, v, v⟩
        let rest := diffRow mis bits missing_flag reference scale diffmin packed n true st'
        (v :: rest.1, rest.2)
      else
        let v : ℚ := st.psav + (diffmin + (idat : ℚ) * scale)
        let st' : DiffState := ⟨cur.1, cur.2, false, v, st.plin⟩
        let rest := diffRow mis bits missing_flag reference scale diffmin packed n line st'
        (v :: rest.1, rest.2)

/-- The row loop of the `diff` decoder (`for j in range(self.ky)`). -/
def diffRows (mis : ℚ) (bits : Nat) (missing_flag : Int) (reference scale diffmin : ℚ)
    (packed : List Int) (kx : Nat) : Nat → DiffState → List ℚ
  | 0, _ => []
  | j + 1, st =>
      let row := diffRow mis bits missing_flag reference scale diffmin packed kx false st
      row.1 ++ diffRows mis bits missing_flag reference scale diffmin packed kx j row.2

/-- `GempakGrid._unpack_grid` (decode.py lines 568-714), dispatching on the
packing-type code (0 none, 1 grib, 2 nmc, 3 diff, 4 dec, 5 grib2).  Byte
reads are abstracted: `noneBuf` is the float payload of the `none` codec,
`packed` the packed integer words, and the `grid_meta_int`/`grid_meta_real`
records are passed field by field (`dBits`..`dDiffmin` for `diff`,
`gBits`..`gScale` for `grib`/`dec`).  `some` is a decoded field, `none` is
the Python `None` ("no data").  In the `diff` and `grib`/`dec` branches
the packed-buffer struct format is built from `lendat` before the
`lendat > 1` check (decode.py lines 606-608 and 667-671), so a negative
`lendat` raises `struct.error` there (`structFormat`); the `none` branch
reads only under its guard, and its assignment `grid[...] = buffer` into
the `ky * kx` zero array raises `ValueError` unless the payload has
exactly `ky * kx` entries (`broadcastMismatch`). -/
def unpack_grid (mis : ℚ) (code : Int) (dataHeaderLength partHeaderLength : Int)
    (kx ky : Nat) (noneBuf : List ℚ)
    (dBits : Nat) (dFlag : Int) (dRef dScale dDiffmin : ℚ)
    (gBits : Nat) (gFlag : Int) (gKxky : Nat) (gRef gScale : ℚ)
    (packed : List Int) : Except GridErr (Option (List ℚ)) :=
  if code = 0 then
    let lendat := dataHeaderLength - partHeaderLength - 1
    if 1 < lendat then
      if noneBuf.length = ky * kx then .ok (some noneBuf) else .error .broadcastMismatch
    else .ok none
  else if code = 2 then
    .error (.unsupported "NMC unpacking not supported.")
  else if code = 3 then
    let lendat := dataHeaderLength - partHeaderLength - 8
    if lendat < 0 then .error .structFormat
    else if 1 < lendat then
      .ok (some (diffRows mis dBits dFlag dRef dScale dDiffmin packed kx ky ⟨0, 1, true, 0, 0⟩))
    else .ok none
  else if code = 1 ∨ code = 4 then
    let lendat := dataHeaderLength - partHeaderLength - 6
    if lendat < 0 then .error .structFormat
    else if 1 < lendat then
      .ok (some (decCells mis gBits gFlag gRef gScale packed gKxky 1 0))
    else .ok none
  else if code = 5 then
    .error (.unsupported "GRIB2 unpacking not supported.")
  else
    .error (.unknownPacking code)

/-- Python `abs` on a float (modelled as `ℚ`). -/
def pyabs (q : ℚ) : ℚ := if q < 0 then -q else q

/-- `np.isclose(a, b)` with the default tolerances
`atol = 1e-8`, `rtol = 1e-5`. -/
def isclose (a b : ℚ) : Prop :=
  pyabs (a - b) ≤ 1 / 100000000 + (1 / 100000) * pyabs b

instance (a b : ℚ) : Decidable (isclose a b) := by
  unfold isclose
  infer_instance

/-- The merge target `merged`: the six index-aligned profile sequences. -/
structure Profile where
  PRES : List ℚ
  HGHT : List ℚ
  TEMP : List ℚ
  DWPT : List ℚ
  DRCT : List ℚ
  SPED : List ℚ
deriving Repr, DecidableEq

/-- One decoded sounding part: its parameter lists (a parameter the part
does not carry is the empty list). -/
structure PartData where
  PRES : List ℚ
  HGHT : List ℚ
  TEMP : List ℚ
  DWPT : List ℚ
  DRCT : List ℚ
  SPED : List ℚ
deriving Repr, DecidableEq

def PartData.empty : PartData := ⟨[], [], [], [], [], []⟩

/-- The twelve source parts of an unmerged sounding plus the two
vertical-coordinate flags recording whether the `PPBB` / `PPDD` part
carries a `HGHT` parameter (decode.py lines 952-953). -/
structure SndParts where
  TTAA : PartData
  PPAA : PartData
  TRPA : PartData
  MXWA : PartData
  TTBB : PartData
  PPBB : PartData
  TTCC : PartData
  TRPC : PartData
  MXWC : PartData
  TTDD : PartData
  PPDD : PartData
  PPCC : PartData
  ppbbIsZ : Bool
  ppddIsZ : Bool
deriving Repr, DecidableEq

/-- `bisect.bisect_left(a, x)` (CPython's binary search), with explicit
fuel (the search halves `hi - lo`, so `a.length + 1` steps suffice). -/
def bisectLeftAux (a : List ℚ) (x : ℚ) : Nat → Nat → Nat → Nat
  | 0, lo, _ => lo
  | fuel + 1, lo, hi =>
      if lo < hi then
        let mid := (lo + hi) / 2
        if a.getD mid 0 < x then bisectLeftAux a x fuel (mid + 1) hi
        else bisectLeftAux a x fuel lo mid
      else lo

def bisectLeft (a : List ℚ) (x : ℚ) : Nat :=
  bisectLeftAux a x (a.length + 1) 0 a.length

/-- Python `list.insert(i, x)`: a negative index counts from the end and is
clamped at 0; an index past the end appends. -/
def pyInsert {α : Type} (l : List α) (i : Int) (x : α) : List α :=
  let j : Int := if i < 0 then i + l.length else i
  let k : Nat := if j < 0 then 0 else min j.toNat l.length
  List.insertIdx k x l

/-- `first_man_p` (decode.py lines 973-981): the source zips the `TTAA`
pressure list with itself three times — the variables `mt` and `mz` also
range over `PRES` — so the loop finds the first non-missing pressure, not
the first entry with pressure, temperature and height all non-missing. -/
def firstTripleAllPresent (mis : ℚ) : List (ℚ × ℚ × ℚ) → Option ℚ
  | [] => none
  | x :: rest =>
      if x.1 ≠ mis ∧ x.2.1 ≠ mis ∧ x.2.2 ≠ mis then some x.1
      else firstTripleAllPresent mis rest

def first_man_p_calc (mis : ℚ) (ttaa : PartData) : ℚ :=
  match firstTripleAllPresent mis (ttaa.PRES.zip (ttaa.PRES.zip ttaa.PRES)) with
  | some x => x
  | none => mis

/-- Modelled on the claim's words for comparison: the pressure of the first
mandatory-level entry whose pressure, temperature and height are all
non-missing. -/
def firstValidMandatory (mis : ℚ) (ttaa : PartData) : Option ℚ :=
  firstTripleAllPresent mis (ttaa.PRES.zip (ttaa.TEMP.zip ttaa.HGHT))

/-- Steps 1-2 of `_merge_sounding` (decode.py lines 955-995): seed level 0
from `TTAA` (or all-missing), force its height to the station elevation,
then reject the surface if its pressure exceeds 1060, is missing, or is
below `first_man_p`. -/
def processSurface12 (mis selv : ℚ) (ttaa : PartData) : Profile :=
  let m0 : Profile :=
    if ttaa.PRES.length < 1 then
      ⟨[mis], [mis], [mis], [mis], [mis], [mis]⟩
    else
      ⟨[ttaa.PRES.getD 0 mis], [ttaa.HGHT.getD 0 mis], [ttaa.TEMP.getD 0 mis],
       [ttaa.DWPT.getD 0 mis], [ttaa.DRCT.getD 0 mis], [ttaa.SPED.getD 0 mis]⟩
  let m1 : Profile := { m0 with HGHT := m0.HGHT.set 0 selv }
  let fmp := first_man_p_calc mis ttaa
  let sp0 := m1.PRES.getD 0 mis
  let surface_p := if 1060 < sp0 then mis else sp0
  if surface_p = mis ∨ (surface_p < fmp ∧ surface_p ≠ mis) then
    ⟨m1.PRES.set 0 mis, m1.HGHT.set 0 mis, m1.TEMP.set 0 mis,
     m1.DWPT.set 0 mis, m1.DRCT.set 0 mis, m1.SPED.set 0 mis⟩
  else m1

/-- Step 3 of `_merge_sounding` (decode.py lines 997-1024): surface
temperature/dewpoint override from `TTBB` (guarded, as in the source, by
`num_above_sigt_levels`, the `TTDD` count) and surface wind override from
`PPBB` (guarded by `num_above_sigw_levels`, the `PPDD` count), branching on
the `PPBB` vertical coordinate. -/
def surfaceOverrides (mis : ℚ) (p : SndParts) (m : Profile) : Profile :=
  let m1 :=
    if 1 ≤ p.TTDD.PRES.length ∧ p.TTBB.PRES.getD 0 mis ≠ mis
        ∧ p.TTBB.TEMP.getD 0 mis ≠ mis then
      let fmp := m.PRES.getD 0 mis
      let fsp := p.TTBB.PRES.getD 0 mis
      if fmp = mis ∨ isclose fmp fsp then
        { m with PRES := m.PRES.set 0 (p.TTBB.PRES.getD 0 mis),
                 DWPT := m.DWPT.set 0 (p.TTBB.DWPT.getD 0 mis),
                 TEMP := m.TEMP.set 0 (p.TTBB.TEMP.getD 0 mis) }
      else m
    else m
  if p.ppbbIsZ then
    if 1 ≤ p.PPDD.SPED.length ∧ p.PPBB.HGHT.getD 0 mis = 0
        ∧ p.PPBB.DRCT.getD 0 mis ≠ mis then
      { m1 with DRCT := m1.DRCT.set 0 (p.PPBB.DRCT.getD 0 mis),
                SPED := m1.SPED.set 0 (p.PPBB.SPED.getD 0 mis) }
    else m1
  else
    if 1 ≤ p.PPDD.SPED.length ∧ p.PPBB.PRES.getD 0 mis ≠ mis
        ∧ p.PPBB.DRCT.getD 0 mis ≠ mis then
      let fmp := m1.PRES.getD 0 mis
      let fsp := pyabs (p.PPBB.PRES.getD 0 mis)
      if fmp = mis ∨ isclose fmp fsp then
        { m1 with
          DRCT := (m1.DRCT.set 0 (pyabs (p.PPBB.PRES.getD 0 mis))).set 0
            (p.PPBB.DRCT.getD 0 mis),
          SPED := m1.SPED.set 0 (p.PPBB.SPED.getD 0 mis) }
      else m1
    else m1

/-- The append of one admitted mandatory level: for every parameter of the
mandatory part, entry `i` is appended to the corresponding profile
sequence (decode.py lines 1039-1040). -/
def appendPart (m : Profile) (src : PartData) (i : Nat) (mis : ℚ) : Profile :=
  ⟨m.PRES ++ [src.PRES.getD i mis], m.HGHT ++ [src.HGHT.getD i mis],
   m.TEMP ++ [src.TEMP.getD i mis], m.DWPT ++ [src.DWPT.getD i mis],
   m.DRCT ++ [src.DRCT.getD i mis], m.SPED ++ [src.SPED.getD i mis]⟩

/-- Main mandatory-temperature loop (decode.py lines 1034-1043), over
indices `range(1, num_man_levels)`, counting rejected entries in `bgl`. -/
def manTempMain (mis : ℚ) (ttaa : PartData) :
    List Nat → Profile × ℚ × Nat → Profile × ℚ × Nat
  | [], st => st
  | i :: rest, (m, plast, bgl) =>
      if ttaa.PRES.getD i mis < plast ∧ ttaa.PRES.getD i mis ≠ mis
          ∧ ttaa.TEMP.getD i mis ≠ mis ∧ ttaa.HGHT.getD i mis ≠ mis then
        let m' := appendPart m ttaa i mis
        manTempMain mis ttaa rest (m', m'.PRES.getLastD mis, bgl)
      else
        manTempMain mis ttaa rest (m, plast, bgl + 1)

/-- Above-100hPa mandatory-temperature loop (decode.py lines 1045-1052),
over indices `range(1, num_above_man_levels)` — the source starts this loop
at index 1 as well, so entry 0 of `TTCC` is never examined. -/
def manTempAbove (mis : ℚ) (ttcc : PartData) :
    List Nat → Profile × ℚ → Profile × ℚ
  | [], st => st
  | i :: rest, (m, plast) =>
      if ttcc.PRES.getD i mis < plast ∧ ttcc.PRES.getD i mis ≠ mis
          ∧ ttcc.TEMP.getD i mis ≠ mis ∧ ttcc.HGHT.getD i mis ≠ mis then
        let m' := appendPart m ttcc i mis
        manTempAbove mis ttcc rest (m', m'.PRES.getLastD mis)
      else
        manTempAbove mis ttcc rest (m, plast)

/-- Step 4 of `_merge_sounding` (decode.py lines 1026-1052). -/
def mergeManTemp (mis : ℚ) (p : SndParts) (m : Profile) : Profile × Nat :=
  let nman := p.TTAA.PRES.length
  let nabove := p.TTCC.PRES.length
  if 2 ≤ nman ∨ 1 ≤ nabove then
    let plast : ℚ := if m.PRES.getD 0 mis = mis then 2000 else m.PRES.getD 0 mis
    let st1 := manTempMain mis p.TTAA (List.range' 1 (nman - 1)) (m, plast, 0)
    let st2 := manTempAbove mis p.TTCC (List.range' 1 (nabove - 1)) (st1.1, st1.2.1)
    (st2.1, st1.2.2)
  else (m, 0)

/-- Python `list.index(x)`: position of the first occurrence. -/
def pyIndex (l : List ℚ) (x : ℚ) : Nat :=
  match l with
  | [] => 0
  | y :: rest => if y = x then 0 else pyIndex rest x + 1

/-- One mandatory-wind pass (decode.py lines 1056-1069 for `PPAA`, repeated
verbatim at 1072-1085 for `PPCC`): fill winds at an existing (non-surface)
pressure if missing, else insert the new level into `PRES`/`DRCT`/`SPED`
at the reverse-bisect position.  Note the source inserts into only those
three sequences. -/
def manWindOne (mis : ℚ) (wind : PartData) :
    List (Nat × ℚ) → Profile → Profile
  | [], m => m
  | (iwind, pres) :: rest, m =>
      let m' :=
        if pres ∈ m.PRES.tail then
          let loc := pyIndex m.PRES pres
          if m.DRCT.getD loc mis = mis then
            { m with DRCT := m.DRCT.set loc (wind.DRCT.getD iwind mis),
                     SPED := m.SPED.set loc (wind.SPED.getD iwind mis) }
          else m
        else
          let size := m.PRES.length
          let loc0 : Int := (size : Int) - (bisectLeft m.PRES.tail.reverse pres : Int)
          let loc : Int := if (size : Int) + 1 ≤ loc0 then -1 else loc0
          { m with PRES := pyInsert m.PRES loc pres,
                   DRCT := pyInsert m.DRCT loc (wind.DRCT.getD iwind mis),
                   SPED := pyInsert m.SPED loc (wind.SPED.getD iwind mis) }
      manWindOne mis wind rest m'

/-- Step 5 of `_merge_sounding` (decode.py lines 1054-1085). -/
def mergeManWind (mis : ℚ) (p : SndParts) (m : Profile) : Profile :=
  let m1 :=
    if 1 ≤ p.PPAA.PRES.length ∧ 2 ≤ p.TTAA.PRES.length then
      manWindOne mis p.PPAA p.PPAA.PRES.enum m
    else m
  if 1 ≤ p.PPCC.SPED.length ∧ 2 ≤ p.TTAA.PRES.length then
    manWindOne mis p.PPCC p.PPCC.PRES.enum m1
  else m1

/-- Steps 1-4 of the merge composed. -/
def mergeThroughManTemp (mis selv : ℚ) (p : SndParts) : Profile × Nat :=
  mergeManTemp mis p (surfaceOverrides mis p (processSurface12 mis selv p.TTAA))

/-- Steps 1-5 of the merge composed. -/
def mergeThroughStep5 (mis selv : ℚ) (p : SndParts) : Profile :=
  mergeManWind mis p (mergeThroughManTemp mis selv p).1

/-- Loop state of the height-coordinate significant-wind merge: the profile
plus `more`, the bracketing heights `zold`/`znxt`, the cursor `ilev`, the
running `size`, and the source cursor `above`/`i`/`iend`. -/
structure SwzState where
  prof : Profile
  more : Bool
  zold : ℚ
  znxt : ℚ
  ilev : Nat
  size : Nat
  above : Bool
  i : Nat
  iend : Nat
deriving Repr

/-- Inner scan of step 11 (decode.py lines 1411-1419):
`while more and hght > znxt`, advancing `ilev` and the bracketing pair. -/
def swzInner (mis hght : ℚ) : Nat → SwzState → SwzState
  | 0, st => st
  | fuel + 1, st =>
      if st.more ∧ st.znxt < hght then
        let zold' := st.znxt
        let ilev' := st.ilev + 1
        if st.size ≤ ilev' then
          swzInner mis hght fuel { st with zold := zold', ilev := ilev', more := false }
        else
          let znxt' := st.prof.HGHT.getD ilev' mis
          if znxt' = mis then
            swzInner mis hght fuel
              { st with zold := zold', znxt := znxt', ilev := ilev', more := false }
          else
            swzInner mis hght fuel { st with zold := zold', znxt := znxt', ilev := ilev' }
      else st

/-- Body of the step-11 `while` loop (decode.py lines 1387-1442): read the
current source entry (from `PPBB` or, after the switch, `PPDD`), run the
skip tests and the inner scan, then fill at a near match of `znxt` (the
guard tests `ilev - 1` while the write is at `ilev`, exactly as in the
source) or insert all six sequences at the ascending bisect position, and
finally advance or switch the source cursor. -/
def swzBody (mis : ℚ) (ppbb ppdd : PartData) (nsgw nasw : Nat) (st : SwzState) : SwzState :=
  let hght := if st.above then ppdd.HGHT.getD st.i mis else ppbb.HGHT.getD st.i mis
  let drct := if st.above then ppdd.DRCT.getD st.i mis else ppbb.DRCT.getD st.i mis
  let sped := if st.above then ppdd.SPED.getD st.i mis else ppbb.SPED.getD st.i mis
  let stsk : SwzState × Bool :=
    if hght = mis ∧ drct = mis ∧ sped = mis then (st, true)
    else if pyabs (st.zold - hght) < 1 then
      let st' :=
        if st.prof.DRCT.getD (st.ilev - 1) mis = mis
            ∨ st.prof.SPED.getD (st.ilev - 1) mis = mis then
          { st with prof := { st.prof with
              DRCT := st.prof.DRCT.set (st.ilev - 1) drct,
              SPED := st.prof.SPED.set (st.ilev - 1) sped } }
        else st
      (st', true)
    else if hght ≤ st.zold then (st, true)
    else if st.znxt ≤ hght then (swzInner mis hght (st.size + 1) st, false)
    else (st, false)
  let st1 := stsk.1
  let skip := stsk.2
  let st2 :=
    if st1.more ∧ ¬ skip then
      if pyabs (st1.znxt - hght) < 1 then
        if st1.prof.DRCT.getD (st1.ilev - 1) mis = mis
            ∨ st1.prof.SPED.getD (st1.ilev - 1) mis = mis then
          { st1 with prof := { st1.prof with
              DRCT := st1.prof.DRCT.set st1.ilev drct,
              SPED := st1.prof.SPED.set st1.ilev sped } }
        else st1
      else
        let loc := bisectLeft st1.prof.HGHT hght
        { st1 with
          prof := ⟨List.insertIdx loc mis st1.prof.PRES,
                   List.insertIdx loc hght st1.prof.HGHT,
                   List.insertIdx loc mis st1.prof.TEMP,
                   List.insertIdx loc mis st1.prof.DWPT,
                   List.insertIdx loc drct st1.prof.DRCT,
                   List.insertIdx loc sped st1.prof.SPED⟩,
          size := st1.size + 1 }
    else st1
  if ¬ st2.above ∧ st2.i = nsgw - 1 then
    { st2 with above := true, i := 0, iend := nasw }
  else
    { st2 with i := st2.i + 1 }

/-- Outer `while more and i < iend` loop of step 11, with explicit fuel
(every body call either advances `i` or performs the one-time switch, so
`nsgw + nasw + 2` steps suffice). -/
def swzOuter (mis : ℚ) (ppbb ppdd : PartData) (nsgw nasw : Nat) :
    Nat → SwzState → SwzState
  | 0, st => st
  | fuel + 1, st =>
      if st.more ∧ st.i < st.iend then
        swzOuter mis ppbb ppdd nsgw nasw fuel (swzBody mis ppbb ppdd nsgw nasw st)
      else st

/-- Step 11 of `_merge_sounding` (decode.py lines 1345-1442): the
height-coordinate significant-wind merge, taking the profile as it stands
after the step-10 interpolation. -/
def mergeSigWindHeight (mis : ℚ) (p : SndParts) (m : Profile) : Profile :=
  if p.ppbbIsZ ∨ p.ppddIsZ then
    let nsgw := if p.ppbbIsZ then p.PPBB.SPED.length else 0
    let nasw := if p.ppddIsZ then p.PPDD.SPED.length else 0
    let istart : Nat :=
      if (1 ≤ nsgw ∧ p.PPBB.HGHT.getD 0 mis = 0)
          ∨ p.PPBB.HGHT.getD 0 mis = m.HGHT.getD 0 mis then 1 else 0
    let size := m.HGHT.length
    let psfc := m.PRES.getD 0 mis
    let zsfc := m.HGHT.getD 0 mis
    let init : Bool × ℚ × ℚ × Nat :=
      if 2 ≤ size ∧ psfc ≠ mis ∧ zsfc ≠ mis then
        (true, m.HGHT.getD 0 mis, m.HGHT.getD 1 mis, 1)
      else if 3 ≤ size then
        (true, m.HGHT.getD 1 mis, m.HGHT.getD 2 mis, 2)
      else
        (false, mis, mis, 0)
    let more1 : Bool := if init.2.1 = mis ∨ init.2.2.1 = mis then false else init.1
    let start : Bool × Nat × Nat :=
      if istart ≤ nsgw then (false, istart, nsgw) else (true, 0, nasw)
    let stF := swzOuter mis p.PPBB p.PPDD nsgw nasw (nsgw + nasw + 2)
      ⟨m, more1, init.2.1, init.2.2.1, init.2.2.2, size, start.1, start.2.1, start.2.2⟩
    stF.prof
  else m

/-- The TTAA part of the C3 counter-input: a surface entry whose pressure
(900) is present but whose temperature and height are missing, followed by
a fully valid entry at 1000. -/
def exTTAAc3 : PartData :=
  ⟨[900, 1000], [-9999, 100], [-9999, 5], [-9999, 6], [-9999, 7], [-9999, 8]⟩

/-- C4 counter-input: a valid two-level TTAA and a TTCC whose only entry
(pressure 500, temperature and height present, below the last admitted
pressure 850) satisfies every admission condition of the claim. -/
def exPartsC4 : SndParts :=
  ⟨⟨[1000, 850], [100, 1500], [20, 10], [15, 5], [90, 180], [5, 10]⟩,
   .empty, .empty, .empty, .empty, .empty,
   ⟨[500], [5500], [-20], [-30], [200], [30]⟩,
   .empty, .empty, .empty, .empty, .empty, false, false⟩

/-- C1 counter-input: a valid two-level TTAA and one mandatory wind at a
pressure (900) that is not among the admitted mandatory pressures. -/
def exPartsC1 : SndParts :=
  ⟨⟨[1000, 850], [100, 1500], [20, 10], [15, 5], [90, 180], [5, 10]⟩,
   ⟨[900], [], [], [], [270], [25]⟩,
   .empty, .empty, .empty, .empty, .empty,
   .empty, .empty, .empty, .empty, .empty, false, false⟩

/-- C7 counter-input profile (state after step 10): three levels at heights
0, 1000, 2000; winds present at level 0 and missing at levels 1 and 2. -/
def exProfC7 : Profile :=
  ⟨[1000, 900, 800], [0, 1000, 2000], [20, 10, 0], [15, 5, -5],
   [90, -9999, -9999], [10, -9999, -9999]⟩

/-- C7 counter-input parts: a height-coordinate PPBB with a single wind at
height 1000, which matches the profile's `znxt` (level 1) exactly. -/
def exPartsC7 : SndParts :=
  ⟨.empty, .empty, .empty, .empty, .empty,
   ⟨[], [1000], [], [], [270], [50]⟩,
   .empty, .empty, .empty, .empty, .empty, .empty, true, false⟩

theorem c_int32_congr {x y : Int} (h : x % 4294967296 = y % 4294967296) :
    c_int32 x = c_int32 y := by
  unfold c_int32
  rw [h]

/-- Claim C5: the shared shift primitive reproduces Fortran 32-bit shift
semantics on every 32-bit signed integer `i`: a positive shift is a left
shift of the 32-bit pattern of `i`, wrapped modulo `2^32` and reinterpreted
as signed two's complement (`c_int32`); a negative shift is a logical right
shift of the 32-bit pattern (for non-negative `i` the pattern is `i`
itself, so the shift is the native one); a zero shift is the identity. -/
theorem fortran_ishift_spec (i s : Int)
    (hlo : -2147483648 ≤ i) (hhi : i < 2147483648) :
    (0 < s → fortran_ishift i s = c_int32 ((i % 4294967296) * 2 ^ s.toNat))
    ∧ (s < 0 → fortran_ishift i s = (i % 4294967296) / 2 ^ (-s).toNat)
    ∧ (s = 0 → fortran_ishift i s = i) := by
  refine ⟨fun hs => ?_, fun hs => ?_, fun hs => ?_⟩
  · rw [fortran_ishift, if_pos hs]
    refine c_int32_congr ?_
    conv_rhs => rw [Int.mul_emod, Int.emod_emod_of_dvd i (dvd_refl _), ← Int.mul_emod]
  · rw [fortran_ishift, if_neg (by omega), if_pos hs]
    by_cases hi : i < 0
    · rw [if_pos hi]
    · rw [if_neg hi, Int.emod_eq_of_lt (by omega) (by omega)]
  · subst hs
    rw [fortran_ishift, if_neg (by omega), if_neg (by omega)]

/-- Witness for C5 at the concrete input `i = -8`, `s = -2`. -/
theorem fortran_ishift_spec_witness :
    fortran_ishift (-8) (-2) = ((-8 : Int) % 4294967296) / 2 ^ (-(-2 : Int)).toNat :=
  (fortran_ishift_spec (-8) (-2) (by decide) (by decide)).2.1 (by decide)

theorem int_fdiv_of_nonneg (a b : Int) (hb : 0 ≤ b) : a.fdiv b = a / b :=
  Int.fdiv_eq_ediv a hb

theorem neg_one_ediv_of_pos (b : Int) (hb : 0 < b) : (-1 : Int) / b = -1 := by
  rw [show (-1 : Int) / b = ((b - 1) + b * (-1)) / b by
      rw [show (b : Int) - 1 + b * (-1) = -1 by ring],
    Int.add_mul_ediv_left _ _ (by omega), Int.ediv_eq_zero_of_lt (by omega) (by omega)]
  omega

theorem ceil_mul_eq_iff_dvd (L pw : Nat) (hpw : 0 < pw) (hL : 0 < L) :
    (((L - 1) / pw + 1) * pw = L ↔ pw ∣ L) ∧ (pw ∣ L → (L - 1) / pw + 1 = L / pw) := by
  have main : pw ∣ L → (L - 1) / pw + 1 = L / pw ∧ (L / pw) * pw = L := by
    rintro ⟨k, rfl⟩
    have hk : k ≠ 0 := by rintro rfl; simp at hL
    obtain ⟨k', rfl⟩ : ∃ k', k = k' + 1 := ⟨k - 1, by omega⟩
    have hmul : pw * k' + pw = pw * (k' + 1) := by ring
    have h1 : pw * (k' + 1) - 1 = (pw - 1) + pw * k' := by omega
    have h3 : (pw * (k' + 1) - 1) / pw = k' := by
      rw [h1, Nat.add_mul_div_left _ _ hpw, Nat.div_eq_of_lt (by omega)]
      omega
    have h4 : pw * (k' + 1) / pw = k' + 1 := Nat.mul_div_cancel_left _ hpw
    refine ⟨by omega, by rw [h4]; ring⟩
  constructor
  · constructor
    · intro h
      refine ⟨(L - 1) / pw + 1, ?_⟩
      conv_lhs => rw [← h]
      ring
    · intro h
      obtain ⟨h1, h2⟩ := main h
      rw [h1]
      exact h2
  · exact fun h => (main h).1

/-- Characterization of `unpack_real` when the parameter table has positive
total bit width: the call fails with the length mismatch error exactly when
`pwords` does not divide the declared length, and otherwise decodes
`length / pwords` parameter groups in order. -/
theorem unpack_real_eq (mis : ℚ) (buffer : List Int) (table : List Parm)
    (length : Nat) (htot : 0 < (table.map Parm.bits).sum) :
    unpack_real mis buffer table length =
      if pwordsNat table ∣ length then
        .ok ((List.range (length / pwordsNat table)).flatMap fun g =>
          groupDecode mis ((buffer.drop (g * pwordsNat table)).take (pwordsNat table)) 0 table)
      else
        .error .lengthMismatch := by
  have hcast : ((((table.map Parm.bits).sum : Int)) - 1).fdiv 32 + 1 = (pwordsNat table : Int) := by
    rw [int_fdiv_of_nonneg _ _ (by omega)]
    unfold pwordsNat
    omega
  have hpwpos : 0 < pwordsNat table := by unfold pwordsNat; omega
  unfold unpack_real
  rw [hcast, if_neg (by omega : ¬ (pwordsNat table : Int) = 0)]
  rcases Nat.eq_zero_or_pos length with rfl | hL
  · have hnp : (((0 : Nat) : Int) - 1).fdiv (pwordsNat table : Int) + 1 = 0 := by
      rw [show (((0 : Nat) : Int)) - 1 = -1 by omega,
        int_fdiv_of_nonneg _ _ (by omega), neg_one_ediv_of_pos _ (by exact_mod_cast hpwpos)]
      ring
    rw [hnp, if_neg (by simp), if_pos (dvd_zero _)]
    simp
  · have hnp : (((length : Nat) : Int) - 1).fdiv (pwordsNat table : Int) + 1
        = (((length - 1) / pwordsNat table + 1 : Nat) : Int) := by
      rw [show (((length : Nat) : Int)) - 1 = (((length - 1 : Nat)) : Int) by omega,
        int_fdiv_of_nonneg _ _ (by omega), ← Int.natCast_div]
      push_cast
      ring
    rw [hnp]
    obtain ⟨hiff, hdiv⟩ := ceil_mul_eq_iff_dvd length (pwordsNat table) hpwpos hL
    by_cases hdvd : pwordsNat table ∣ length
    · have hnat : ((length - 1) / pwordsNat table + 1) * pwordsNat table = length := hiff.mpr hdvd
      rw [if_neg (by push_neg; exact_mod_cast hnat), if_pos hdvd]
      have ht1 : ((((length - 1) / pwordsNat table + 1 : Nat)) : Int).toNat
          = length / pwordsNat table := by
        rw [Int.toNat_natCast]
        exact hdiv hdvd
      have ht2 : ((pwordsNat table : Int)).toNat = pwordsNat table := Int.toNat_natCast _
      rw [ht1, ht2]
    · rw [if_pos, if_neg hdvd]
      intro hcon
      exact hdvd (hiff.mp (by exact_mod_cast hcon))

/-- `imissc`/`mask` in `_unpack_real`: shifting the all-ones 32-bit pattern
right by `32 - b` yields the all-ones value of bit width `b`. -/
theorem ishift_mask (b : Nat) (hb : b ≤ 32) :
    fortran_ishift 4294967295 ((b : Int) - 32) = 2 ^ b - 1 := by
  rcases eq_or_lt_of_le hb with rfl | hlt
  · norm_num [fortran_ishift]
  · have hs1 : ¬ (0 < (b : Int) - 32) := by omega
    have hs2 : (b : Int) - 32 < 0 := by omega
    rw [fortran_ishift, if_neg hs1, if_pos hs2, if_neg (by norm_num)]
    have hk : (-(((b : Int)) - 32)).toNat = 32 - b := by omega
    rw [hk]
    have hpow : (2 : Nat) ^ b * 2 ^ (32 - b) = 2 ^ 32 := by
      rw [← pow_add]
      congr 1
      omega
    have h1 : 1 ≤ (2 : Nat) ^ b := Nat.one_le_two_pow
    have h2 : 1 ≤ (2 : Nat) ^ (32 - b) := Nat.one_le_two_pow
    have key : (4294967295 : Nat) = (2 ^ (32 - b) - 1) + (2 ^ b - 1) * 2 ^ (32 - b) := by
      have h32 : (2 : Nat) ^ 32 = 4294967296 := by norm_num
      have hmul : (2 ^ b - 1) * 2 ^ (32 - b) = 2 ^ b * 2 ^ (32 - b) - 2 ^ (32 - b) :=
        Nat.sub_one_mul _ _
      have h3 : (2 : Nat) ^ (32 - b) ≤ 2 ^ 32 := Nat.pow_le_pow_right (by norm_num) (by omega)
      rw [hmul, hpow]
      omega
    have hnat : (4294967295 : Nat) / 2 ^ (32 - b) = 2 ^ b - 1 := by
      rw [key, Nat.add_mul_div_right _ _ (by omega), Nat.div_eq_of_lt (by omega)]
      omega
    calc (4294967295 : Int) / 2 ^ (32 - b)
        = (((4294967295 : Nat) : Int)) / (((2 ^ (32 - b) : Nat)) : Int) := by push_cast; norm_num
      _ = (((4294967295 / 2 ^ (32 - b) : Nat)) : Int) := (Int.natCast_div _ _).symm
      _ = ((((2 ^ b - 1 : Nat)) : Int)) := by rw [hnat]
      _ = 2 ^ b - 1 := by
          have : 1 ≤ (2 : Nat) ^ b := Nat.one_le_two_pow
          push_cast [this]
          ring

theorem groupDecode_length (mis : ℚ) (pdat : List Int) :
    ∀ (table : List Parm) (t0 : Nat), (groupDecode mis pdat t0 table).length = table.length := by
  intro table
  induction table with
  | nil => intro t0; rfl
  | cons e rest ih => intro t0; simp [groupDecode, ih]

theorem groupDecode_getD (mis : ℚ) (pdat : List Int) :
    ∀ (table : List Parm) (t0 p : Nat), p < table.length →
      (groupDecode mis pdat t0 table).getD p 0
        = decodeOne mis pdat (t0 + bitsBefore table p) (table.getD p ⟨"", 0, 0, 0⟩) := by
  intro table
  induction table with
  | nil => intro t0 p hp; simp at hp
  | cons e rest ih =>
    intro t0 p hp
    cases p with
    | zero =>
      simp [groupDecode, bitsBefore]
    | succ p' =>
      have hp' : p' < rest.length := by simpa using hp
      simp only [groupDecode, List.getD_cons_succ]
      rw [ih (t0 + e.bits) p' hp']
      have hbb : bitsBefore (e :: rest) (p' + 1) = e.bits + bitsBefore rest p' := by
        simp [bitsBefore]
      rw [hbb, ← Nat.add_assoc]

theorem range_flatMap_length {α : Type} (f : Nat → List α) (n : Nat)
    (hf : ∀ k, (f k).length = n) : ∀ m, ((List.range m).flatMap f).length = m * n := by
  intro m
  induction m with
  | zero => simp
  | succ m ih =>
    rw [List.range_succ, List.flatMap_append, List.length_append, ih]
    simp [hf]
    ring

theorem range_flatMap_getD {α : Type} (d : α) (f : Nat → List α) (n : Nat)
    (hf : ∀ k, (f k).length = n) :
    ∀ (m g p : Nat), g < m → p < n →
      ((List.range m).flatMap f).getD (g * n + p) d = (f g).getD p d := by
  intro m
  induction m with
  | zero => intro g p hg _; exact absurd hg (Nat.not_lt_zero g)
  | succ m ih =>
    intro g p hg hp
    rw [List.range_succ, List.flatMap_append]
    rcases Nat.lt_or_ge g m with hgm | hgm
    · rw [List.getD_append]
      · exact ih g p hgm hp
      · rw [range_flatMap_length f n hf m]
        calc g * n + p < g * n + n := by omega
          _ = (g + 1) * n := by ring
          _ ≤ m * n := Nat.mul_le_mul_right n (by omega)
    · have hgm' : g = m := by omega
      rw [hgm']
      rw [List.getD_append_right _ _ _ _ (by rw [range_flatMap_length f n hf m]; omega)]
      rw [range_flatMap_length f n hf m]
      simp only [List.flatMap_cons, List.flatMap_nil, List.append_nil]
      congr 1
      omega

theorem unpack_real_total_bits_pos {mis : ℚ} {buffer : List Int} {table : List Parm}
    {L : Nat} {r : List ℚ} (hok : unpack_real mis buffer table L = .ok r) :
    0 < (table.map Parm.bits).sum := by
  by_contra h
  have h0 : (table.map Parm.bits).sum = 0 := by omega
  unfold unpack_real at hok
  rw [h0] at hok
  rw [show (((0 : Nat) : Int) - 1).fdiv 32 + 1 = 0 by decide] at hok
  rw [if_pos rfl] at hok
  exact Except.noConfusion hok

/-- Claim C10: every successful call of the bit-unpacking primitive with
`n` parameters and declared length `L` returns exactly `(L / pwords) * n`
values — one per parameter per repeated group. -/
theorem unpack_real_output_length (mis : ℚ) (buffer : List Int) (table : List Parm)
    (L : Nat) (r : List ℚ)
    (hb : ∀ e ∈ table, 1 ≤ e.bits ∧ e.bits ≤ 32)
    (hbuf : L ≤ buffer.length)
    (hok : unpack_real mis buffer table L = .ok r) :
    r.length = (L / pwordsNat table) * table.length := by
  have htot := unpack_real_total_bits_pos hok
  rw [unpack_real_eq mis buffer table L htot] at hok
  by_cases hdvd : pwordsNat table ∣ L
  · rw [if_pos hdvd] at hok
    cases hok
    exact range_flatMap_length _ _ (fun k => groupDecode_length mis _ table 0) _
  · rw [if_neg hdvd] at hok
    exact Except.noConfusion hok

/-- Witness for C10: two 16-bit parameters packed into the single word
`131073 = 0x00020001`, declared length 1. -/
theorem unpack_real_output_length_witness :
    ((List.range (1 / pwordsNat [Parm.mk "P" 0 0 16, Parm.mk "T" 0 0 16])).flatMap fun g =>
        groupDecode 0 (([(131073 : Int)].drop
            (g * pwordsNat [Parm.mk "P" 0 0 16, Parm.mk "T" 0 0 16])).take
          (pwordsNat [Parm.mk "P" 0 0 16, Parm.mk "T" 0 0 16])) 0
        [Parm.mk "P" 0 0 16, Parm.mk "T" 0 0 16]).length
      = (1 / pwordsNat [Parm.mk "P" 0 0 16, Parm.mk "T" 0 0 16])
        * ([Parm.mk "P" 0 0 16, Parm.mk "T" 0 0 16] : List Parm).length := by
  refine unpack_real_output_length 0 [(131073 : Int)] _ 1 _ (by decide) (by decide) ?_
  rw [unpack_real_eq _ _ _ _ (by decide), if_pos (by decide)]

/-- Claim C2: in every successful call of the bit-unpacking primitive, the
value decoded for parameter `p` of group `g` is the missing sentinel when
the extracted field equals the all-ones mask `2 ^ bits - 1` of the
parameter's bit width, and `(field + offset) * 10 ^ scale` otherwise. -/
theorem unpack_real_field_decode (mis : ℚ) (buffer : List Int) (table : List Parm)
    (L : Nat) (r : List ℚ)
    (hb : ∀ e ∈ table, 1 ≤ e.bits ∧ e.bits ≤ 32)
    (hbuf : L ≤ buffer.length)
    (hok : unpack_real mis buffer table L = .ok r)
    (g p : Nat) (hp : p < table.length) (hg : g < L / pwordsNat table) :
    r.getD (g * table.length + p) 0 =
      (let e := table.getD p ⟨"", 0, 0, 0⟩
       let pdat := (buffer.drop (g * pwordsNat table)).take (pwordsNat table)
       let f := extractField pdat (bitsBefore table p) e.bits
       if f = 2 ^ e.bits - 1 then mis
       else ((f : ℚ) + (e.offset : ℚ)) * pow10 e.scale) := by
  have htot := unpack_real_total_bits_pos hok
  rw [unpack_real_eq mis buffer table L htot] at hok
  by_cases hdvd : pwordsNat table ∣ L
  · rw [if_pos hdvd] at hok
    cases hok
    rw [range_flatMap_getD 0 _ table.length
      (fun k => groupDecode_length mis _ table 0) _ g p hg hp]
    rw [groupDecode_getD mis _ table 0 p hp]
    have hmem : table.getD p ⟨"", 0, 0, 0⟩ ∈ table := by
      rw [List.getD_eq_getElem table _ hp]
      exact List.getElem_mem hp
    obtain ⟨hb1, hb2⟩ := hb _ hmem
    rw [decodeOne]
    rw [ishift_mask _ hb2]
    rw [Nat.zero_add]
  · rw [if_neg hdvd] at hok
    exact Except.noConfusion hok

/-- Witness for C2 at the same concrete input, group 0 parameter 0 (the
extracted field is `1`, below the all-ones mask `65535`, so the decoded
value is `(1 + 0) * 10 ^ 0`). -/
theorem unpack_real_field_decode_witness :
    ((List.range (1 / pwordsNat [Parm.mk "P" 0 0 16, Parm.mk "T" 0 0 16])).flatMap fun g =>
        groupDecode 0 (([(131073 : Int)].drop
            (g * pwordsNat [Parm.mk "P" 0 0 16, Parm.mk "T" 0 0 16])).take
          (pwordsNat [Parm.mk "P" 0 0 16, Parm.mk "T" 0 0 16])) 0
        [Parm.mk "P" 0 0 16, Parm.mk "T" 0 0 16]).getD
          (0 * ([Parm.mk "P" 0 0 16, Parm.mk "T" 0 0 16] : List Parm).length + 0) 0 =
      (let e := ([Parm.mk "P" 0 0 16, Parm.mk "T" 0 0 16] : List Parm).getD 0 ⟨"", 0, 0, 0⟩
       let pdat := ([(131073 : Int)].drop
          (0 * pwordsNat [Parm.mk "P" 0 0 16, Parm.mk "T" 0 0 16])).take
        (pwordsNat [Parm.mk "P" 0 0 16, Parm.mk "T" 0 0 16])
       let f := extractField pdat (bitsBefore [Parm.mk "P" 0 0 16, Parm.mk "T" 0 0 16] 0) e.bits
       if f = 2 ^ e.bits - 1 then 0
       else ((f : ℚ) + (e.offset : ℚ)) * pow10 e.scale) := by
  refine unpack_real_field_decode 0 [(131073 : Int)] _ 1 _ (by decide) (by decide) ?_ 0 0
    (by decide) (by decide)
  rw [unpack_real_eq _ _ _ _ (by decide), if_pos (by decide)]

/-- Claim C6 (amended): provided the parameter table has positive total bit
width, the bit-unpacking primitive fails with the length-mismatch error
exactly when `pwords = ceil(total bits / 32)` does not divide the declared
word count, and on success processes `L / pwords` groups (one value per
parameter per group). -/
theorem unpack_real_mismatch_iff (mis : ℚ) (buffer : List Int) (table : List Parm)
    (L : Nat) (htot : 0 < (table.map Parm.bits).sum) :
    (unpack_real mis buffer table L = .error .lengthMismatch
        ↔ ¬ (((table.map Parm.bits).sum + 31) / 32 ∣ L))
    ∧ ∀ r, unpack_real mis buffer table L = .ok r →
        r.length = (L / (((table.map Parm.bits).sum + 31) / 32)) * table.length := by
  have hpw : ((table.map Parm.bits).sum + 31) / 32 = pwordsNat table := by
    unfold pwordsNat
    omega
  rw [hpw, unpack_real_eq mis buffer table L htot]
  constructor
  · by_cases hdvd : pwordsNat table ∣ L
    · rw [if_pos hdvd]
      simp [hdvd]
    · rw [if_neg hdvd]
      simp [hdvd]
  · intro r hr
    by_cases hdvd : pwordsNat table ∣ L
    · rw [if_pos hdvd] at hr
      cases hr
      exact range_flatMap_length _ _ (fun k => groupDecode_length mis _ table 0) _
    · rw [if_neg hdvd] at hr
      exact Except.noConfusion hr

/-- Counterexample to C6 as frozen: with a parameter table of total bit
width zero, `pwords = 0` does not divide the declared length 5, yet the
call does not fail with the length-mismatch error — it fails with the
division by zero raised when computing `npack`. -/
theorem unpack_real_mismatch_counterexample :
    ¬ (((([Parm.mk "TEST" 0 0 0] : List Parm).map Parm.bits).sum + 31) / 32 ∣ 5)
    ∧ unpack_real 0 [] [Parm.mk "TEST" 0 0 0] 5 ≠ Except.error UnpackErr.lengthMismatch := by
  constructor
  · decide
  · have hval : unpack_real 0 [] [Parm.mk "TEST" 0 0 0] 5
        = Except.error UnpackErr.zeroDivision := rfl
    intro h
    rw [hval] at h
    exact UnpackErr.noConfusion (Except.error.inj h)

/-- Witness for C6 (amended): a 40-bit parameter gives `pwords = 2`, which
does not divide the declared length 3, and the call fails with the
length-mismatch error. -/
theorem unpack_real_mismatch_iff_witness :
    unpack_real 0 [] [Parm.mk "A" 0 0 40] 3 = Except.error UnpackErr.lengthMismatch :=
  ((unpack_real_mismatch_iff 0 [] [Parm.mk "A" 0 0 40] 3 (by decide)).1).mpr (by decide)

/-- Claim C8 (amended): the `none` decoder returns "no data" for every
computed `lendat` at most 1; the `diff` and `grib`/`dec` decoders return
"no data" for `lendat` between 0 and 1, and for a negative `lendat` they
fail with the struct-format error raised while building the packed-buffer
format, before the `lendat > 1` check.  In no case is a zero-filled or
partially filled field returned. -/
theorem unpack_grid_no_data (mis : ℚ) (dhl phl : Int) (kx ky : Nat) (noneBuf : List ℚ)
    (dBits : Nat) (dFlag : Int) (dRef dScale dDiffmin : ℚ)
    (gBits : Nat) (gFlag : Int) (gKxky : Nat) (gRef gScale : ℚ) (packed : List Int) :
    (dhl - phl - 1 ≤ 1 →
      unpack_grid mis 0 dhl phl kx ky noneBuf dBits dFlag dRef dScale dDiffmin
        gBits gFlag gKxky gRef gScale packed = .ok none)
    ∧ (0 ≤ dhl - phl - 8 → dhl - phl - 8 ≤ 1 →
      unpack_grid mis 3 dhl phl kx ky noneBuf dBits dFlag dRef dScale dDiffmin
        gBits gFlag gKxky gRef gScale packed = .ok none)
    ∧ (0 ≤ dhl - phl - 6 → dhl - phl - 6 ≤ 1 →
      unpack_grid mis 1 dhl phl kx ky noneBuf dBits dFlag dRef dScale dDiffmin
        gBits gFlag gKxky gRef gScale packed = .ok none
      ∧ unpack_grid mis 4 dhl phl kx ky noneBuf dBits dFlag dRef dScale dDiffmin
        gBits gFlag gKxky gRef gScale packed = .ok none)
    ∧ (dhl - phl - 8 < 0 →
      unpack_grid mis 3 dhl phl kx ky noneBuf dBits dFlag dRef dScale dDiffmin
        gBits gFlag gKxky gRef gScale packed = .error .structFormat)
    ∧ (dhl - phl - 6 < 0 →
      unpack_grid mis 1 dhl phl kx ky noneBuf dBits dFlag dRef dScale dDiffmin
        gBits gFlag gKxky gRef gScale packed = .error .structFormat
      ∧ unpack_grid mis 4 dhl phl kx ky noneBuf dBits dFlag dRef dScale dDiffmin
        gBits gFlag gKxky gRef gScale packed = .error .structFormat) := by
  refine ⟨fun h => ?_, fun h0 h1 => ?_, fun h0 h1 => ⟨?_, ?_⟩, fun h => ?_, fun h => ⟨?_, ?_⟩⟩ <;>
    · simp only [unpack_grid]
      split_ifs <;> first | rfl | omega | tauto

/-- Counterexample to C8 as frozen: with `dhl = 0`, `phl = 0` the `diff`
codec computes `lendat = -8 ≤ 1`, but instead of returning "no data" the
decoder fails with the struct-format error (decode.py lines 606-608 build
the packed-buffer format from the negative count before the check). -/
theorem unpack_grid_no_data_counterexample :
    ((0 : Int) - 0 - 8 ≤ 1)
    ∧ unpack_grid 0 3 0 0 2 2 [] 4 0 0 0 0 4 0 4 0 0 [] = .error .structFormat
    ∧ unpack_grid 0 3 0 0 2 2 [] 4 0 0 0 0 4 0 4 0 0 []
        ≠ (.ok none : Except GridErr (Option (List ℚ))) := by
  have hval : unpack_grid 0 3 0 0 2 2 [] 4 0 0 0 0 4 0 4 0 0 []
      = .error .structFormat := rfl
  refine ⟨by norm_num, hval, ?_⟩
  rw [hval]
  intro h
  exact Except.noConfusion h

/-- Witness for C8 (amended), one concrete input per codec: `none` at
`lendat = 0`; `diff` and `grib` at `lendat = 1`; `diff` at the negative
`lendat = -7`. -/
theorem unpack_grid_no_data_witness :
    unpack_grid 0 0 3 2 2 2 [] 4 0 0 0 0 4 0 4 0 0 [] = .ok none ∧
    unpack_grid 0 3 10 1 2 2 [] 4 0 0 0 0 4 0 4 0 0 [] = .ok none ∧
    unpack_grid 0 1 8 1 2 2 [] 4 0 0 0 0 4 0 4 0 0 [] = .ok none ∧
    unpack_grid 0 3 3 2 2 2 [] 4 0 0 0 0 4 0 4 0 0 [] = .error .structFormat :=
  ⟨(unpack_grid_no_data 0 3 2 2 2 [] 4 0 0 0 0 4 0 4 0 0 []).1 (by decide),
   (unpack_grid_no_data 0 10 1 2 2 [] 4 0 0 0 0 4 0 4 0 0 []).2.1 (by decide) (by decide),
   ((unpack_grid_no_data 0 8 1 2 2 [] 4 0 0 0 0 4 0 4 0 0 []).2.2.1 (by decide) (by decide)).1,
   (unpack_grid_no_data 0 3 2 2 2 [] 4 0 0 0 0 4 0 4 0 0 []).2.2.2.1 (by decide)⟩

/-- Claim C9: the grid payload decoder fails with an unsupported-codec
error for the `nmc` (code 2) and `grib2` (code 5) packing types, and for
every packing code outside `{0, 1, 2, 3, 4, 5}` it fails with an
unsupported-codec error naming the code; it never returns a field in these
cases. -/
theorem unpack_grid_unsupported (mis : ℚ) (dhl phl : Int) (kx ky : Nat) (noneBuf : List ℚ)
    (dBits : Nat) (dFlag : Int) (dRef dScale dDiffmin : ℚ)
    (gBits : Nat) (gFlag : Int) (gKxky : Nat) (gRef gScale : ℚ) (packed : List Int) :
    unpack_grid mis 2 dhl phl kx ky noneBuf dBits dFlag dRef dScale dDiffmin
      gBits gFlag gKxky gRef gScale packed
      = .error (.unsupported "NMC unpacking not supported.")
    ∧ unpack_grid mis 5 dhl phl kx ky noneBuf dBits dFlag dRef dScale dDiffmin
      gBits gFlag gKxky gRef gScale packed
      = .error (.unsupported "GRIB2 unpacking not supported.")
    ∧ ∀ code : Int, code ≠ 0 → code ≠ 1 → code ≠ 2 → code ≠ 3 → code ≠ 4 → code ≠ 5 →
      unpack_grid mis code dhl phl kx ky noneBuf dBits dFlag dRef dScale dDiffmin
        gBits gFlag gKxky gRef gScale packed = .error (.unknownPacking code) := by
  refine ⟨by rw [unpack_grid]; norm_num, by rw [unpack_grid]; norm_num,
    fun code h0 h1 h2 h3 h4 h5 => ?_⟩
  rw [unpack_grid, if_neg h0, if_neg h2, if_neg h3, if_neg (by tauto), if_neg h5]

/-- Witness for C9 at the unknown packing code 7. -/
theorem unpack_grid_unsupported_witness :
    unpack_grid 0 7 3 2 2 2 [] 4 0 0 0 0 4 0 4 0 0 []
      = .error (.unknownPacking 7) :=
  (unpack_grid_unsupported 0 3 2 2 2 [] 4 0 0 0 0 4 0 4 0 0 []).2.2 7
    (by decide) (by decide) (by decide) (by decide) (by decide) (by decide)

/-- Claim C3: the surface level must be set all-missing when its pressure
is below the first mandatory entry with pressure, temperature and height
all non-missing.  On this input that first valid entry has pressure 1000
and the surface pressure is 900 (not missing, not above 1060), so the
claim requires an all-missing surface; the code instead keeps the surface,
because `first_man_p` is computed from a zip of PRES with itself three
times (decode.py lines 974-976) and therefore equals 900. -/
theorem surface_validation_uses_pres_only :
    (processSurface12 (-9999) 100 exTTAAc3).PRES = [900]
    ∧ firstValidMandatory (-9999) exTTAAc3 = some 1000
    ∧ ((900 : ℚ) < 1000 ∧ (900 : ℚ) ≤ 1060) := by
  refine ⟨?_, ?_, by norm_num⟩
  · norm_num [processSurface12, first_man_p_calc, firstTripleAllPresent, exTTAAc3]
  · norm_num [firstValidMandatory, firstTripleAllPresent, exTTAAc3]

/-- Claim C4: an entry of the above-100hPa continuation is appended iff
pressure, temperature and height are present and the pressure is below the
last admitted one.  `TTCC` entry 0 satisfies all conditions on this input,
yet after step 4 the profile still holds only `[1000, 850]`: the source's
continuation loop `for i in range(1, num_above_man_levels)` (decode.py
line 1045) never examines entry 0. -/
theorem mergeManTemp_skips_first_continuation_level :
    (mergeThroughManTemp (-9999) 100 exPartsC4).1.PRES = [1000, 850]
    ∧ exPartsC4.TTCC.PRES.getD 0 (-9999) = 500
    ∧ ((500 : ℚ) < 850 ∧ (500 : ℚ) ≠ -9999
        ∧ exPartsC4.TTCC.TEMP.getD 0 (-9999) ≠ -9999
        ∧ exPartsC4.TTCC.HGHT.getD 0 (-9999) ≠ -9999) := by
  refine ⟨?_, by norm_num [exPartsC4], by norm_num [exPartsC4]⟩
  norm_num [mergeThroughManTemp, mergeManTemp, manTempMain, manTempAbove,
    processSurface12, surfaceOverrides, first_man_p_calc, firstTripleAllPresent,
    appendPart, exPartsC4, PartData.empty, List.range', List.getLastD]

/-- Claim C1: all six profile sequences must have equal length after every
merge step.  After step 5 on this input, the mandatory-wind insert at
pressure 900 has extended `PRES`, `DRCT`, `SPED` to length 3 while `TEMP`
(like `DWPT` and `HGHT`) still has length 2: the insert at decode.py lines
1063-1069 touches only three of the six sequences. -/
theorem mergeManWind_breaks_alignment :
    (mergeThroughStep5 (-9999) 100 exPartsC1).PRES = [1000, 900, 850]
    ∧ (mergeThroughStep5 (-9999) 100 exPartsC1).DRCT = [90, 270, 180]
    ∧ (mergeThroughStep5 (-9999) 100 exPartsC1).TEMP = [20, 10]
    ∧ (mergeThroughStep5 (-9999) 100 exPartsC1).HGHT = [100, 1500]
    ∧ (mergeThroughStep5 (-9999) 100 exPartsC1).PRES.length = 3
    ∧ (mergeThroughStep5 (-9999) 100 exPartsC1).TEMP.length = 2 := by
  have hmain : mergeThroughStep5 (-9999) 100 exPartsC1 =
      ⟨[1000, 900, 850], [100, 1500], [20, 10], [15, 5], [90, 270, 180], [5, 25, 10]⟩ := by
    norm_num [mergeThroughStep5, mergeThroughManTemp, mergeManTemp, manTempMain,
      manTempAbove, mergeManWind, manWindOne, processSurface12, surfaceOverrides,
      first_man_p_calc, firstTripleAllPresent, appendPart, exPartsC1, PartData.empty,
      List.range', List.getLastD, List.enum, List.enumFrom, pyIndex, pyInsert,
      bisectLeft, bisectLeftAux, List.insertIdx_zero, List.insertIdx_succ_cons]
  rw [hmain]
  norm_num

/-- Claim C7: when a source height matches `znxt` within 1 unit, the level
at the cursor (`ilev`, which holds `znxt`) must receive the source winds
exactly when that level's winds are missing.  Here the source height 1000
matches level 1's height exactly and level 1's winds are missing, yet the
merge leaves the profile unchanged: the fill guard at decode.py lines
1423-1424 tests the winds of level `ilev - 1` (level 0, where winds are
present) although the write at lines 1425-1426 targets `ilev`. -/
theorem sigw_height_fill_guard_mismatch :
    mergeSigWindHeight (-9999) exPartsC7 exProfC7 = exProfC7
    ∧ pyabs (exProfC7.HGHT.getD 1 0 - exPartsC7.PPBB.HGHT.getD 0 0) < 1
    ∧ exProfC7.DRCT.getD 1 0 = -9999
    ∧ exProfC7.SPED.getD 1 0 = -9999
    ∧ exPartsC7.PPBB.DRCT.getD 0 0 = 270 := by
  refine ⟨?_, by norm_num [exProfC7, exPartsC7, pyabs], by norm_num [exProfC7],
    by norm_num [exProfC7], by norm_num [exPartsC7]⟩
  norm_num [mergeSigWindHeight, swzOuter, swzBody, swzInner, pyabs,
    exProfC7, exPartsC7, PartData.empty]
